import Mathlib

/-!
Verification of the detection engine of the intrusion-detection dashboard
(`backend/analyzer.py`).  The engine parses a tabular batch of network
connection records and runs four rule-based detectors over it.

Modelling conventions:
* Time points are `Nat` values at second granularity.  `pd.to_datetime` /
  `strftime("%Y-%m-%d %H:%M:%S")` round-trip a time point at second
  granularity, so an alert's formatted `timestamp` string is modelled by
  the underlying second value.
* A raw CSV batch is modelled after pandas type inference: each cell is
  either a string or an integer (`Cell`).  `pd.read_csv` itself is the
  external library boundary.
* `df.sort_values('timestamp')` is modelled as a stable insertion sort on
  the timestamp key.
* Python exceptions raised by the engine are modelled with `Except`.
-/

deriving instance DecidableEq for Except

namespace IDD

/-- A cell of the parsed CSV table, after pandas type inference: either a
string-valued cell or an integer-valued cell (pandas int64 may be negative). -/
inductive Cell where
  | str (s : String)
  | int (n : Int)
  deriving DecidableEq, Repr

/-- A raw tabular batch: a header row of column names and data rows whose
cells align positionally with the header. -/
structure RawBatch where
  header : List String
  rows : List (List Cell)
  deriving DecidableEq, Repr

/-- One validated network connection record (one row of the parsed frame). -/
structure ConnectionRecord where
  timestamp : Nat
  source_ip : String
  destination_ip : String
  port : Int
  protocol : String
  packet_size : Int
  deriving DecidableEq, Repr

/-- One detection finding, mirroring the alert dict built by the detectors.
The `timestamp` field is the second-granularity value rendered by
`strftime("%Y-%m-%d %H:%M:%S")` in the source. -/
structure Alert where
  timestamp : Nat
  source_ip : String
  port : Int
  threat_type : String
  description : String
  deriving DecidableEq, Repr

/-- Errors raised by the engine.  `schemaError` models the
`ValueError("Missing required columns: ...")` raised by `parse_csv_logs`,
carrying the missing column names; `rowError` models any exception raised
while converting row contents (e.g. `pd.to_datetime` failure), which
`parse_csv_logs` re-raises unchanged. -/
inductive AnalyzerError where
  | schemaError (missing : List String)
  | rowError
  deriving DecidableEq, Repr

/-- Allowed ports, `self.allowed_ports = {22, 80, 443}`. -/
def allowed_ports : List Int := [22, 80, 443]

/-- Connection threshold, `self.connection_threshold = 10`. -/
def connection_threshold : Nat := 10

/-- Window length in seconds, `self.time_window = 60`. -/
def time_window : Nat := 60

/-- Known protocols, `common_protocols = ['TCP', 'UDP', 'HTTP', 'HTTPS']`. -/
def common_protocols : List String := ["TCP", "UDP", "HTTP", "HTTPS"]

/-- Default packet-size threshold, `size_threshold: int = 65536`. -/
def large_packet_threshold : Int := 65536

/-- The six required columns checked by `parse_csv_logs`. -/
def requiredColumns : List String :=
  ["timestamp", "source_ip", "destination_ip", "port", "protocol", "packet_size"]

/-- ASCII uppercasing of a string, modelling Python `str.upper()` on the
protocol strings handled by the engine. -/
def strUpper (s : String) : String := String.mk (s.data.map Char.toUpper)

/-- Digit list to number, most significant first. -/
def digitsToNat (cs : List Char) : Nat :=
  cs.foldl (fun a c => a * 10 + (c.toNat - 48)) 0

/-- Parsing of the reference timestamp format `YYYY-MM-DD HH:MM:SS` by
`pd.to_datetime`, modelled as an injective second-granularity encoding
(months and days are placed in fixed radixes; no claim depends on calendar
arithmetic across month boundaries, only on second differences within a
window, which the encoding renders faithfully inside a day). -/
def parseTimestamp (s : String) : Option Nat :=
  match s.data with
  | [y1, y2, y3, y4, c1, o1, o2, c2, d1, d2, c3, h1, h2, c4, i1, i2, c5, s1, s2] =>
    if c1 = Char.ofNat 45 ∧ c2 = Char.ofNat 45 ∧ c3 = Char.ofNat 32 ∧
        c4 = Char.ofNat 58 ∧ c5 = Char.ofNat 58 ∧
        ([y1, y2, y3, y4, o1, o2, d1, d2, h1, h2, i1, i2, s1, s2].all Char.isDigit) then
      some (((((digitsToNat [y1, y2, y3, y4] * 12 + digitsToNat [o1, o2]) * 31 +
        digitsToNat [d1, d2]) * 24 + digitsToNat [h1, h2]) * 60 +
        digitsToNat [i1, i2]) * 60 + digitsToNat [s1, s2])
    else none
  | _ => none

/-- Positional lookup of the cell under column `c`: walk header and row
together (pandas column access by name). -/
def lookupCell : List String → List Cell → String → Option Cell
  | [], _, _ => none
  | _ :: _, [], _ => none
  | h :: hs, v :: vs, c => if h = c then some v else lookupCell hs vs c

/-- String-typed column access. -/
def getStr (header : List String) (row : List Cell) (c : String) : Option String :=
  match lookupCell header row c with
  | some (Cell.str s) => some s
  | _ => none

/-- Integer-typed column access (pandas numeric column inference). -/
def getInt (header : List String) (row : List Cell) (c : String) : Option Int :=
  match lookupCell header row c with
  | some (Cell.int n) => some n
  | _ => none

/-- Conversion of one raw row into a `ConnectionRecord`: the timestamp cell
is parsed with `parseTimestamp` (the `pd.to_datetime` column conversion in
`parse_csv_logs`); the other five cells are taken at their inferred types.
No sign check is performed on `port` or `packet_size`. -/
def parseRow (header : List String) (row : List Cell) : Option ConnectionRecord := do
  let ts ← getStr header row "timestamp"
  let t ← parseTimestamp ts
  let sip ← getStr header row "source_ip"
  let dip ← getStr header row "destination_ip"
  let p ← getInt header row "port"
  let proto ← getStr header row "protocol"
  let sz ← getInt header row "packet_size"
  pure { timestamp := t, source_ip := sip, destination_ip := dip, port := p,
         protocol := proto, packet_size := sz }

/-- Row-by-row conversion of the batch, preserving input row order. -/
def parseRows (header : List String) : List (List Cell) → Option (List ConnectionRecord)
  | [] => some []
  | row :: rest => do
    let r ← parseRow header row
    let rs ← parseRows header rest
    pure (r :: rs)

/-- Embedding of `parse_csv_logs`: validate that every required column is in
the header (otherwise raise, listing the missing columns), then convert the
rows; any row-conversion failure is re-raised as `rowError`. -/
def parse_csv_logs (b : RawBatch) : Except AnalyzerError (List ConnectionRecord) :=
  let missing := requiredColumns.filter (fun c => decide (c ∉ b.header))
  if missing = [] then
    match parseRows b.header b.rows with
    | some recs => Except.ok recs
    | none => Except.error AnalyzerError.rowError
  else
    Except.error (AnalyzerError.schemaError missing)

/-- Alert built by `detect_suspicious_ports` for one offending record. -/
def mkSuspiciousPortAlert (r : ConnectionRecord) : Alert :=
  { timestamp := r.timestamp, source_ip := r.source_ip, port := r.port,
    threat_type := "Suspicious Port",
    description := "Connection to non-standard port " ++ toString r.port ++
      " detected from " ++ r.source_ip }

/-- Embedding of `detect_suspicious_ports`: one alert per record whose port
is not in `allowed_ports`, in input record order. -/
def detect_suspicious_ports (df : List ConnectionRecord) : List Alert :=
  (df.filter (fun r => decide (r.port ∉ allowed_ports))).map mkSuspiciousPortAlert

/-- Alert built by `detect_unusual_protocols` for one offending record. -/
def mkUnusualProtocolAlert (r : ConnectionRecord) : Alert :=
  { timestamp := r.timestamp, source_ip := r.source_ip, port := r.port,
    threat_type := "Unusual Protocol",
    description := "Unusual protocol \x27" ++ r.protocol ++ "\x27 detected from " ++
      r.source_ip }

/-- Embedding of `detect_unusual_protocols`: one alert per record whose
uppercased protocol is not in `common_protocols`, in input record order. -/
def detect_unusual_protocols (df : List ConnectionRecord) : List Alert :=
  (df.filter (fun r => decide (strUpper r.protocol ∉ common_protocols))).map
    mkUnusualProtocolAlert

/-- Alert built by `detect_large_packets` for one offending record. -/
def mkLargePacketAlert (size_threshold : Int) (r : ConnectionRecord) : Alert :=
  { timestamp := r.timestamp, source_ip := r.source_ip, port := r.port,
    threat_type := "Large Packet",
    description := "Large packet (" ++ toString r.packet_size ++
      " bytes) detected from " ++ r.source_ip ++ " (threshold: " ++
      toString size_threshold ++ ")" }

/-- Embedding of `detect_large_packets`: one alert per record with
`packet_size` strictly above the threshold, in input record order.  The
threshold parameter is used as supplied; the source performs no validation
on it. -/
def detect_large_packets (df : List ConnectionRecord) (size_threshold : Int) :
    List Alert :=
  (df.filter (fun r => decide (size_threshold < r.packet_size))).map
    (mkLargePacketAlert size_threshold)

/-- Stable insertion of a record into a timestamp-sorted list: the inserted
record goes before the first element with an equal or later timestamp. -/
def insertByTs (r : ConnectionRecord) : List ConnectionRecord → List ConnectionRecord
  | [] => [r]
  | x :: xs => if x.timestamp < r.timestamp then x :: insertByTs r xs else r :: x :: xs

/-- Embedding of `df.sort_values('timestamp')` as a stable sort on the
timestamp key (ties keep input order). -/
def sortByTimestamp : List ConnectionRecord → List ConnectionRecord
  | [] => []
  | r :: rest => insertByTs r (sortByTimestamp rest)

/-- First-appearance deduplication, auxiliary with a seen accumulator. -/
def uniquesAux : List String → List String → List String
  | [], _ => []
  | a :: l, seen => if a ∈ seen then uniquesAux l seen else a :: uniquesAux l (a :: seen)

/-- Embedding of `df['source_ip'].unique()`: the distinct values in order of
first appearance. -/
def uniques (l : List String) : List String := uniquesAux l []

/-- Records of `ip_data` falling in the right-inclusive window
`[start, start + time_window]` (the `window_connections` selection). -/
def windowRecords (ip_data : List ConnectionRecord) (start : Nat) : List ConnectionRecord :=
  ip_data.filter (fun r => decide (start ≤ r.timestamp) && decide (r.timestamp ≤ start + time_window))

/-- Size of the window anchored at `start` over `ip_data`. -/
def windowCount (ip_data : List ConnectionRecord) (start : Nat) : Nat :=
  (windowRecords ip_data start).length

/-- Description built for a high-frequency alert (`f"IP {source_ip} made
{len(window_connections)} connections in 1 minute (threshold: ...)"`). -/
def mkHighFreqDescr (source_ip : String) (count : Nat) : String :=
  "IP " ++ source_ip ++ " made " ++ toString count ++
    " connections in 1 minute (threshold: " ++ toString connection_threshold ++ ")"

/-- The scan loop of `detect_high_frequency_connections` for one source:
walk `scan` (the sorted per-source records) in order; at each record anchor
the window there over the full per-source list `ip_data`; on the first
window whose size strictly exceeds the threshold, emit the alert (window
start time, port of the first record in the window) and stop (`break`). -/
def hfScan (source_ip : String) (ip_data : List ConnectionRecord) :
    List ConnectionRecord → Option Alert
  | [] => none
  | r :: rest =>
    let w := windowRecords ip_data r.timestamp
    if connection_threshold < w.length then
      match w with
      | [] => none
      | w0 :: _ =>
        some { timestamp := r.timestamp, source_ip := source_ip, port := w0.port,
               threat_type := "High Frequency Connection",
               description := mkHighFreqDescr source_ip w.length }
    else hfScan source_ip ip_data rest

/-- One iteration of the per-source loop of
`detect_high_frequency_connections`: select the source's records from the
sorted frame, skip the source when it has fewer than `connection_threshold`
records, otherwise scan its windows. -/
def ipAlert (df_sorted : List ConnectionRecord) (ip : String) : Option Alert :=
  let ip_data := df_sorted.filter (fun r => decide (r.source_ip = ip))
  if ip_data.length < connection_threshold then none
  else hfScan ip ip_data ip_data

/-- Embedding of `detect_high_frequency_connections`: sort the frame by
timestamp once, then iterate the distinct source IPs in first-appearance
order, collecting at most one alert per source. -/
def detect_high_frequency_connections (df : List ConnectionRecord) : List Alert :=
  (uniques (df.map (fun r => r.source_ip))).filterMap (ipAlert (sortByTimestamp df))

/-- Embedding of `analyze_logs`: parse, then concatenate the four detectors
in fixed order (any parse failure propagates and no detector runs). -/
def analyze_logs (b : RawBatch) : Except AnalyzerError (List Alert) := do
  let df ← parse_csv_logs b
  pure (detect_suspicious_ports df ++ detect_high_frequency_connections df ++
    detect_unusual_protocols df ++ detect_large_packets df large_packet_threshold)

/-- Increment of the count of key `k` in an association list, appending the
key on first sight (a `defaultdict(int)` bump, insertion-ordered). -/
def bumpCount (m : List (String × Nat)) (k : String) : List (String × Nat) :=
  match m with
  | [] => [(k, 1)]
  | (k0, n) :: rest =>
    if k0 = k then (k0, n + 1) :: rest else (k0, n) :: bumpCount rest k

/-- Insertion into the set of seen source IPs (`set().add`). -/
def addSource (s : List String) (ip : String) : List String :=
  if ip ∈ s then s else s ++ [ip]

/-- Summary of one run, mirroring the dict built by `get_analysis_summary`;
`analysis_timestamp` carries the `datetime.now()` value supplied by the
environment. -/
structure AnalysisSummary where
  total_alerts : Nat
  unique_source_ips : Nat
  threat_breakdown : List (String × Nat)
  analysis_timestamp : Nat
  deriving DecidableEq, Repr

/-- Embedding of `get_analysis_summary`: fold the alerts once, counting per
threat type and collecting distinct source IPs. -/
def get_analysis_summary (alerts : List Alert) (now : Nat) : AnalysisSummary :=
  let threat_counts := alerts.foldl (fun m a => bumpCount m a.threat_type) []
  let source_ips := alerts.foldl (fun s a => addSource s a.source_ip) []
  { total_alerts := alerts.length, unique_source_ips := source_ips.length,
    threat_breakdown := threat_counts, analysis_timestamp := now }

/-- Sortedness of a record list on the timestamp key. -/
def TsSorted (l : List ConnectionRecord) : Prop :=
  l.Pairwise (fun a b => a.timestamp ≤ b.timestamp)

theorem perm_insertByTs (r : ConnectionRecord) (l : List ConnectionRecord) :
    (insertByTs r l).Perm (r :: l) := by
  induction l with
  | nil => simp [insertByTs]
  | cons x xs ih =>
    by_cases h : x.timestamp < r.timestamp
    · simp only [insertByTs, if_pos h]
      exact (ih.cons x).trans (List.Perm.swap r x xs)
    · simp [insertByTs, if_neg h]

theorem perm_sortByTimestamp (l : List ConnectionRecord) :
    (sortByTimestamp l).Perm l := by
  induction l with
  | nil => simp [sortByTimestamp]
  | cons x xs ih =>
    exact (perm_insertByTs x (sortByTimestamp xs)).trans (ih.cons x)

theorem tsSorted_insertByTs (r : ConnectionRecord) {l : List ConnectionRecord}
    (hl : TsSorted l) : TsSorted (insertByTs r l) := by
  induction l with
  | nil => simp [insertByTs, TsSorted]
  | cons x xs ih =>
    rw [TsSorted, List.pairwise_cons] at hl
    by_cases h : x.timestamp < r.timestamp
    · simp only [insertByTs, if_pos h, TsSorted, List.pairwise_cons]
      constructor
      · intro y hy
        have hy2 := (perm_insertByTs r xs).mem_iff.mp hy
        rcases List.mem_cons.mp hy2 with hy3 | hy3
        · subst hy3; exact Nat.le_of_lt h
        · exact hl.1 y hy3
      · exact ih hl.2
    · simp only [insertByTs, if_neg h, TsSorted, List.pairwise_cons]
      refine ⟨?_, hl.1, hl.2⟩
      intro y hy
      rcases List.mem_cons.mp hy with hy2 | hy2
      · subst hy2; exact Nat.le_of_not_lt h
      · exact Nat.le_trans (Nat.le_of_not_lt h) (hl.1 y hy2)

theorem tsSorted_sortByTimestamp (l : List ConnectionRecord) :
    TsSorted (sortByTimestamp l) := by
  induction l with
  | nil => simp [sortByTimestamp, TsSorted]
  | cons x xs ih => exact tsSorted_insertByTs x ih

theorem insertByTs_of_forall {r : ConnectionRecord} {l : List ConnectionRecord}
    (h : ∀ y ∈ l, ¬ y.timestamp < r.timestamp) : insertByTs r l = r :: l := by
  cases l with
  | nil => rfl
  | cons x xs => simp [insertByTs, if_neg (h x (by simp))]

theorem filter_insertByTs (p : ConnectionRecord → Bool) (r : ConnectionRecord)
    {l : List ConnectionRecord} (hl : TsSorted l) :
    (insertByTs r l).filter p =
      if p r then insertByTs r (l.filter p) else l.filter p := by
  induction l with
  | nil =>
    by_cases hr : p r <;> simp [insertByTs, List.filter, hr]
  | cons x xs ih =>
    rw [TsSorted, List.pairwise_cons] at hl
    by_cases hx : x.timestamp < r.timestamp
    · have ihx := ih hl.2
      by_cases hpx : p x <;> by_cases hpr : p r <;>
        simp [insertByTs, if_pos hx, List.filter_cons, hpx, hpr, ihx, insertByTs]
    · have hall : ∀ y ∈ List.filter p (x :: xs), ¬ y.timestamp < r.timestamp := by
        intro y hy
        have hy2 := (List.mem_filter.mp hy).1
        rcases List.mem_cons.mp hy2 with hy3 | hy3
        · subst hy3; exact hx
        · intro hc
          exact hx (Nat.lt_of_le_of_lt (hl.1 y hy3) hc)
      by_cases hpr : p r
      · simp only [insertByTs, if_neg hx]
        rw [if_pos hpr, insertByTs_of_forall hall]
        simp [List.filter_cons, hpr]
      · simp [insertByTs, if_neg hx, List.filter_cons, hpr]

theorem filter_sortByTimestamp (p : ConnectionRecord → Bool)
    (l : List ConnectionRecord) :
    (sortByTimestamp l).filter p = sortByTimestamp (l.filter p) := by
  induction l with
  | nil => simp [sortByTimestamp]
  | cons x xs ih =>
    show (insertByTs x (sortByTimestamp xs)).filter p = _
    rw [filter_insertByTs p x (tsSorted_sortByTimestamp xs), ih, List.filter_cons]
    by_cases hx : p x <;> simp [hx, sortByTimestamp]

theorem mem_uniquesAux {a : String} {l seen : List String} :
    a ∈ uniquesAux l seen ↔ a ∈ l ∧ a ∉ seen := by
  induction l generalizing seen with
  | nil => simp [uniquesAux]
  | cons x xs ih =>
    by_cases hx : x ∈ seen
    · rw [uniquesAux, if_pos hx, ih]
      simp only [List.mem_cons]
      constructor
      · exact fun h => ⟨Or.inr h.1, h.2⟩
      · rintro ⟨hm | hm, hs⟩
        · exact absurd hx (hm ▸ hs)
        · exact ⟨hm, hs⟩
    · rw [uniquesAux, if_neg hx]
      simp only [List.mem_cons, ih]
      by_cases hax : a = x
      · subst hax; simp [hx]
      · simp [hax]

theorem nodup_uniquesAux (l seen : List String) : (uniquesAux l seen).Nodup := by
  induction l generalizing seen with
  | nil => simp [uniquesAux]
  | cons x xs ih =>
    by_cases hx : x ∈ seen
    · rw [uniquesAux, if_pos hx]; exact ih seen
    · rw [uniquesAux, if_neg hx]
      refine List.Nodup.cons ?_ (ih (x :: seen))
      intro hc
      exact (mem_uniquesAux.mp hc).2 (by simp)

theorem mem_uniques {a : String} {l : List String} : a ∈ uniques l ↔ a ∈ l := by
  rw [uniques, mem_uniquesAux]
  simp

theorem nodup_uniques (l : List String) : (uniques l).Nodup := nodup_uniquesAux l []

theorem sublist_uniquesAux (l seen : List String) : (uniquesAux l seen).Sublist l := by
  induction l generalizing seen with
  | nil => simp [uniquesAux]
  | cons x xs ih =>
    by_cases hx : x ∈ seen
    · rw [uniquesAux, if_pos hx]
      exact (ih seen).trans (List.sublist_cons_self x xs)
    · rw [uniquesAux, if_neg hx]
      exact (ih (x :: seen)).cons₂ x

theorem sublist_uniques (l : List String) : (uniques l).Sublist l :=
  sublist_uniquesAux l []

/-- Records of `df` belonging to source `ip`, in input order: the
per-source selection underlying the frequency detector. -/
def srcRecords (df : List ConnectionRecord) (ip : String) : List ConnectionRecord :=
  df.filter (fun r => decide (r.source_ip = ip))

/-- The high-frequency alerts emitted for one source: the sublist of the
detector output whose `source_ip` equals `ip` (derived observation used to
state per-source properties). -/
def hfAlertsFor (df : List ConnectionRecord) (ip : String) : List Alert :=
  (detect_high_frequency_connections df).filter (fun a => decide (a.source_ip = ip))

theorem hfScan_source (ip : String) (d : List ConnectionRecord) :
    ∀ scan a, hfScan ip d scan = some a → a.source_ip = ip := by
  intro scan
  induction scan with
  | nil => intro a h; simp [hfScan] at h
  | cons r rest ih =>
    intro a h
    simp only [hfScan] at h
    split at h
    · split at h
      · exact absurd h (by simp)
      · cases h; rfl
    · exact ih a h

theorem ipAlert_source {d : List ConnectionRecord} {ip : String} {a : Alert}
    (h : ipAlert d ip = some a) : a.source_ip = ip := by
  simp only [ipAlert] at h
  split at h
  · exact absurd h (by simp)
  · exact hfScan_source ip _ _ a h

theorem filter_filterMap_nodup (f : String → Option Alert) (ip : String) :
    ∀ us : List String, us.Nodup → (∀ i a, f i = some a → a.source_ip = i) →
    (us.filterMap f).filter (fun a => decide (a.source_ip = ip)) =
      if ip ∈ us then (f ip).toList else [] := by
  intro us
  induction us with
  | nil => intro _ _; simp
  | cons x xs ih =>
    intro hnd hf
    have hnx : x ∈ xs → False := fun hc => (List.nodup_cons.mp hnd).1 hc
    rw [List.filterMap_cons]
    cases hfx : f x with
    | none =>
      rw [ih (List.nodup_cons.mp hnd).2 hf]
      by_cases hix : ip = x
      · subst hix
        simp [fun hc => hnx hc, hfx]
      · simp [List.mem_cons, hix]
    | some b =>
      have hb : b.source_ip = x := hf x b hfx
      rw [List.filter_cons, ih (List.nodup_cons.mp hnd).2 hf]
      by_cases hix : ip = x
      · subst hix
        have hnx2 : ip ∉ xs := fun hc => hnx hc
        simp [hb, hfx, hnx2]
      · have hb2 : (decide (b.source_ip = ip)) = false := by
          simp [hb]
          exact fun hc => hix hc.symm
        simp [hb2, List.mem_cons, hix]

theorem hfAlertsFor_eq (df : List ConnectionRecord) (ip : String) :
    hfAlertsFor df ip =
      if ip ∈ df.map (fun r => r.source_ip) then
        (ipAlert (sortByTimestamp df) ip).toList
      else [] := by
  rw [hfAlertsFor, detect_high_frequency_connections,
    filter_filterMap_nodup _ ip _ (nodup_uniques _) (fun i a h => ipAlert_source h)]
  simp [mem_uniques]

theorem windowCount_perm {l₁ l₂ : List ConnectionRecord} (h : l₁.Perm l₂) (t : Nat) :
    windowCount l₁ t = windowCount l₂ t := by
  rw [windowCount, windowCount, windowRecords, windowRecords,
    ← List.countP_eq_length_filter, ← List.countP_eq_length_filter]
  exact h.countP_eq _

theorem windowCount_le_length (l : List ConnectionRecord) (t : Nat) :
    windowCount l t ≤ l.length := List.length_filter_le _ _

theorem hfScan_eq_none (ip : String) (d : List ConnectionRecord) :
    ∀ scan, (∀ r ∈ scan, windowCount d r.timestamp ≤ connection_threshold) →
    hfScan ip d scan = none := by
  intro scan
  induction scan with
  | nil => intro _; rfl
  | cons r rest ih =>
    intro h
    have hr := h r (by simp)
    rw [windowCount] at hr
    simp only [hfScan]
    rw [if_neg (Nat.not_lt.mpr hr)]
    exact ih (fun r2 hr2 => h r2 (by simp [hr2]))

theorem hfScan_eq_some (ip : String) (d : List ConnectionRecord) :
    ∀ scan, (∃ r ∈ scan, connection_threshold < windowCount d r.timestamp) →
    ∃ a, hfScan ip d scan = some a := by
  intro scan
  induction scan with
  | nil => rintro ⟨r, hr, _⟩; exact absurd hr (by simp)
  | cons r rest ih =>
    rintro ⟨r0, hr0, hc⟩
    simp only [hfScan]
    by_cases hw : connection_threshold < (windowRecords d r.timestamp).length
    · rw [if_pos hw]
      cases hww : windowRecords d r.timestamp with
      | nil => rw [hww] at hw; simp at hw
      | cons w0 ws => exact ⟨_, rfl⟩
    · rw [if_neg hw]
      apply ih
      rcases List.mem_cons.mp hr0 with h0 | h0
      · subst h0
        rw [windowCount] at hc
        exact absurd hc hw
      · exact ⟨r0, h0, hc⟩

theorem hfScan_first (ip : String) (d : List ConnectionRecord) :
    ∀ l₁ r l₂, (∀ r2 ∈ l₁, windowCount d r2.timestamp ≤ connection_threshold) →
    connection_threshold < windowCount d r.timestamp →
    ∀ w0 ws, windowRecords d r.timestamp = w0 :: ws →
    hfScan ip d (l₁ ++ r :: l₂) =
      some { timestamp := r.timestamp, source_ip := ip, port := w0.port,
             threat_type := "High Frequency Connection",
             description := mkHighFreqDescr ip (windowCount d r.timestamp) } := by
  intro l₁
  induction l₁ with
  | nil =>
    intro r l₂ _ hc w0 ws hw
    have hc2 : connection_threshold < (w0 :: ws).length := by
      rw [← hw, ← windowCount]; exact hc
    simp only [List.nil_append, hfScan]
    rw [hw, if_pos hc2]
    simp [windowCount, hw]
  | cons x xs ih =>
    intro r l₂ h1 hc w0 ws hw
    have hx := h1 x (by simp)
    rw [windowCount] at hx
    simp only [List.cons_append, hfScan]
    rw [if_neg (Nat.not_lt.mpr hx)]
    exact ih r l₂ (fun r2 h2 => h1 r2 (by simp [h2])) hc w0 ws hw

theorem mem_map_source_iff {df : List ConnectionRecord} {ip : String} :
    ip ∈ df.map (fun r => r.source_ip) ↔ srcRecords df ip ≠ [] := by
  rw [srcRecords, Ne, List.filter_eq_nil_iff]
  simp [List.mem_map]

theorem sorted_filter_src (df : List ConnectionRecord) (ip : String) :
    (sortByTimestamp df).filter (fun r => decide (r.source_ip = ip)) =
      sortByTimestamp (srcRecords df ip) := by
  rw [filter_sortByTimestamp, srcRecords]

theorem ipAlert_eq_none_of (df : List ConnectionRecord) (ip : String)
    (h : ∀ r ∈ srcRecords df ip,
      windowCount (srcRecords df ip) r.timestamp ≤ connection_threshold) :
    ipAlert (sortByTimestamp df) ip = none := by
  simp only [ipAlert]
  have hperm : ((sortByTimestamp df).filter
      (fun r => decide (r.source_ip = ip))).Perm (srcRecords df ip) := by
    rw [sorted_filter_src]; exact perm_sortByTimestamp _
  split
  · rfl
  · apply hfScan_eq_none
    intro r hr
    have hr2 : r ∈ srcRecords df ip := hperm.mem_iff.mp hr
    rw [windowCount_perm hperm]
    exact h r hr2

theorem ipAlert_isSome_of (df : List ConnectionRecord) (ip : String)
    (h : ∃ r ∈ srcRecords df ip,
      connection_threshold < windowCount (srcRecords df ip) r.timestamp) :
    ∃ a, ipAlert (sortByTimestamp df) ip = some a := by
  obtain ⟨r, hr, hc⟩ := h
  simp only [ipAlert]
  have hperm : ((sortByTimestamp df).filter
      (fun r => decide (r.source_ip = ip))).Perm (srcRecords df ip) := by
    rw [sorted_filter_src]; exact perm_sortByTimestamp _
  have hcl : connection_threshold <
      windowCount ((sortByTimestamp df).filter (fun r => decide (r.source_ip = ip)))
        r.timestamp := by
    rw [windowCount_perm hperm]; exact hc
  have hlen : ¬ ((sortByTimestamp df).filter
      (fun r => decide (r.source_ip = ip))).length < connection_threshold := by
    have h1 := windowCount_le_length
      ((sortByTimestamp df).filter (fun r => decide (r.source_ip = ip))) r.timestamp
    omega
  rw [if_neg hlen]
  exact hfScan_eq_some ip _ _ ⟨r, hperm.mem_iff.mpr hr, hcl⟩

/-- C1: for every source IP of the batch, the high-frequency detector emits
zero alerts for that source when no record-anchored right-inclusive
60-second window over the source's records holds strictly more than
`connection_threshold` (10) records (in particular when the source has
exactly 10 records in one span, or raw count at least 10 with no qualifying
window), and it emits exactly one alert (never more) when some such
window's count strictly exceeds the threshold. -/
theorem c1_frequency_threshold_boundary (df : List ConnectionRecord) (ip : String) :
    ((∀ r ∈ srcRecords df ip,
        windowCount (srcRecords df ip) r.timestamp ≤ connection_threshold) →
      hfAlertsFor df ip = []) ∧
    ((∃ r ∈ srcRecords df ip,
        connection_threshold < windowCount (srcRecords df ip) r.timestamp) →
      (hfAlertsFor df ip).length = 1) := by
  constructor
  · intro h
    rw [hfAlertsFor_eq]
    by_cases hmem : ip ∈ df.map (fun r => r.source_ip)
    · rw [if_pos hmem, ipAlert_eq_none_of df ip h]; rfl
    · rw [if_neg hmem]
  · rintro ⟨r, hr, hc⟩
    have hmem : ip ∈ df.map (fun r => r.source_ip) := by
      rw [mem_map_source_iff]
      intro hnil
      rw [hnil] at hr
      exact absurd hr (by simp)
    rw [hfAlertsFor_eq, if_pos hmem]
    obtain ⟨a, ha⟩ := ipAlert_isSome_of df ip ⟨r, hr, hc⟩
    rw [ha]; rfl

/-- Helper record constructor for concrete test batches. -/
def sampleRec (t : Nat) (ip : String) (p : Int) (proto : String) (sz : Int) :
    ConnectionRecord :=
  { timestamp := t, source_ip := ip, destination_ip := "10.0.0.1", port := p,
    protocol := proto, packet_size := sz }

/-- Batch with exactly 10 records of one source inside one 60-second span. -/
def tenRecBatch : List ConnectionRecord :=
  (List.range 10).map (fun i => sampleRec (1000 + i) "10.0.0.5" 443 "TCP" 500)

/-- Batch with 11 records of one source inside one 60-second span. -/
def elevenRecBatch : List ConnectionRecord :=
  (List.range 11).map (fun i => sampleRec (1000 + i) "10.0.0.5" 443 "TCP" 500)

set_option maxRecDepth 4000 in
theorem c1_witness :
    hfAlertsFor tenRecBatch "10.0.0.5" = [] ∧
    (hfAlertsFor elevenRecBatch "10.0.0.5").length = 1 :=
  ⟨(c1_frequency_threshold_boundary tenRecBatch "10.0.0.5").1 (by decide),
   (c1_frequency_threshold_boundary elevenRecBatch "10.0.0.5").2 (by decide)⟩

/-- C2: for a source scanned in ascending-timestamp order, the first window
(anchored at record `r`) whose count strictly exceeds the threshold yields
exactly one alert — timestamp the window start, port the port of the first
record inside the window, description stating the observed count and the
threshold — and no further window of that source is scanned (the output for
the source is that single alert whatever follows). -/
theorem c2_first_qualifying_window (df : List ConnectionRecord) (ip : String)
    (l₁ l₂ : List ConnectionRecord) (r : ConnectionRecord)
    (hsplit : (sortByTimestamp df).filter (fun x => decide (x.source_ip = ip)) =
      l₁ ++ r :: l₂)
    (hbefore : ∀ r2 ∈ l₁,
      windowCount (l₁ ++ r :: l₂) r2.timestamp ≤ connection_threshold)
    (hhit : connection_threshold < windowCount (l₁ ++ r :: l₂) r.timestamp) :
    ∃ w0 ws, windowRecords (l₁ ++ r :: l₂) r.timestamp = w0 :: ws ∧
      hfAlertsFor df ip =
        [{ timestamp := r.timestamp, source_ip := ip, port := w0.port,
           threat_type := "High Frequency Connection",
           description :=
             mkHighFreqDescr ip (windowCount (l₁ ++ r :: l₂) r.timestamp) }] := by
  cases hw : windowRecords (l₁ ++ r :: l₂) r.timestamp with
  | nil =>
    rw [windowCount, hw] at hhit
    simp [connection_threshold] at hhit
  | cons w0 ws =>
    refine ⟨w0, ws, rfl, ?_⟩
    have hrmem : r ∈ (sortByTimestamp df).filter (fun x => decide (x.source_ip = ip)) := by
      rw [hsplit]; simp
    have hrip : r.source_ip = ip := by
      have h2 := (List.mem_filter.mp hrmem).2
      simpa using h2
    have hrdf : r ∈ df := (perm_sortByTimestamp df).mem_iff.mp (List.mem_filter.mp hrmem).1
    have hmem : ip ∈ df.map (fun x => x.source_ip) := List.mem_map.mpr ⟨r, hrdf, hrip⟩
    rw [hfAlertsFor_eq, if_pos hmem]
    simp only [ipAlert, hsplit]
    have hlen : ¬ (l₁ ++ r :: l₂).length < connection_threshold := by
      have h1 := windowCount_le_length (l₁ ++ r :: l₂) r.timestamp
      omega
    rw [if_neg hlen, hfScan_first ip _ l₁ r l₂ hbefore hhit w0 ws hw]
    rfl

set_option maxRecDepth 4000 in
theorem c2_witness :
    hfAlertsFor elevenRecBatch "10.0.0.5" =
      [{ timestamp := 1000, source_ip := "10.0.0.5", port := 443,
         threat_type := "High Frequency Connection",
         description := mkHighFreqDescr "10.0.0.5" 11 }] := by
  obtain ⟨w0, ws, hw, hres⟩ :=
    c2_first_qualifying_window elevenRecBatch "10.0.0.5" []
      ((List.range 10).map (fun i => sampleRec (1001 + i) "10.0.0.5" 443 "TCP" 500))
      (sampleRec 1000 "10.0.0.5" 443 "TCP" 500)
      (by decide) (by decide) (by decide)
  have hcomp : windowRecords
      ([] ++ sampleRec 1000 "10.0.0.5" 443 "TCP" 500 ::
        (List.range 10).map (fun i => sampleRec (1001 + i) "10.0.0.5" 443 "TCP" 500))
      (sampleRec 1000 "10.0.0.5" 443 "TCP" 500).timestamp =
      sampleRec 1000 "10.0.0.5" 443 "TCP" 500 ::
        (List.range 10).map (fun i => sampleRec (1001 + i) "10.0.0.5" 443 "TCP" 500) := by
    decide
  rw [hcomp] at hw
  injection hw with h1 h2
  rw [hres, ← h1]
  decide

/-- C9: the frequency detector evaluates each source independently — if two
batches hold identical records for source `ip` (and arbitrary records for
other sources), the high-frequency alerts emitted for `ip` are identical in
both runs, in count and content. -/
theorem c9_per_source_isolation (df₁ df₂ : List ConnectionRecord) (ip : String)
    (h : srcRecords df₁ ip = srcRecords df₂ ip) :
    hfAlertsFor df₁ ip = hfAlertsFor df₂ ip := by
  rw [hfAlertsFor_eq, hfAlertsFor_eq]
  have hmem : (ip ∈ df₁.map (fun r => r.source_ip)) ↔
      (ip ∈ df₂.map (fun r => r.source_ip)) := by
    rw [mem_map_source_iff, mem_map_source_iff, h]
  have hip : ipAlert (sortByTimestamp df₁) ip = ipAlert (sortByTimestamp df₂) ip := by
    simp only [ipAlert]
    rw [sorted_filter_src, sorted_filter_src, h]
  by_cases h1 : ip ∈ df₁.map (fun r => r.source_ip)
  · rw [if_pos h1, if_pos (hmem.mp h1), hip]
  · rw [if_neg h1, if_neg (fun hc => h1 (hmem.mpr hc))]

/-- Two batches with the same records for source "10.0.0.5" but different
records for another source. -/
def c9_batch_one : List ConnectionRecord :=
  sampleRec 3 "172.16.0.9" 80 "UDP" 10 :: elevenRecBatch

def c9_batch_two : List ConnectionRecord :=
  elevenRecBatch ++
    (List.range 12).map (fun i => sampleRec (2000 + i) "172.16.0.9" 22 "TCP" 99)

set_option maxRecDepth 4000 in
theorem c9_witness :
    hfAlertsFor c9_batch_one "10.0.0.5" = hfAlertsFor c9_batch_two "10.0.0.5" :=
  c9_per_source_isolation c9_batch_one c9_batch_two "10.0.0.5" (by decide)

theorem map_filterMap_sublist (f : String → Option Alert)
    (hf : ∀ i a, f i = some a → a.source_ip = i) :
    ∀ us : List String, ((us.filterMap f).map (fun a => a.source_ip)).Sublist us := by
  intro us
  induction us with
  | nil => simp
  | cons x xs ih =>
    rw [List.filterMap_cons]
    cases hfx : f x with
    | none => exact ih.trans (List.sublist_cons_self x xs)
    | some b =>
      rw [List.map_cons, hf x b hfx]
      exact ih.cons₂ x

/-- Batch in which source "9.9.9.9" appears first in the input but its
qualifying window starts later in time than source "1.1.1.1"'s. -/
def c10_batch : List ConnectionRecord :=
  sampleRec 1000 "9.9.9.9" 443 "TCP" 500 ::
    ((List.range 11).map (fun i => sampleRec i "1.1.1.1" 443 "TCP" 500) ++
     (List.range 10).map (fun i => sampleRec (1001 + i) "9.9.9.9" 443 "TCP" 500))

/-- The alert the detector emits for source "9.9.9.9" in `c10_batch`. -/
def c10_alert_late : Alert :=
  { timestamp := 1000, source_ip := "9.9.9.9", port := 443,
    threat_type := "High Frequency Connection",
    description := mkHighFreqDescr "9.9.9.9" 11 }

/-- The alert the detector emits for source "1.1.1.1" in `c10_batch`. -/
def c10_alert_early : Alert :=
  { timestamp := 0, source_ip := "1.1.1.1", port := 443,
    threat_type := "High Frequency Connection",
    description := mkHighFreqDescr "1.1.1.1" 11 }

set_option maxRecDepth 4000 in
/-- C10 (implicit): the frequency detector iterates sources in order of
first appearance in the input — the source projection of its output is a
sublist of the first-appearance list of source IPs — and the output is not
ordered by window-start timestamp: in `c10_batch` the source appearing
first is reported first although its alert timestamp is later. -/
theorem c10_first_appearance_order :
    (∀ df : List ConnectionRecord,
      ((detect_high_frequency_connections df).map (fun a => a.source_ip)).Sublist
        (uniques (df.map (fun r => r.source_ip)))) ∧
    detect_high_frequency_connections c10_batch = [c10_alert_late, c10_alert_early] ∧
    c10_alert_early.timestamp < c10_alert_late.timestamp := by
  refine ⟨?_, by decide, by decide⟩
  intro df
  exact map_filterMap_sublist _ (fun i a h => ipAlert_source h) _

theorem hfScan_threat (ip : String) (d : List ConnectionRecord) :
    ∀ scan a, hfScan ip d scan = some a →
    a.threat_type = "High Frequency Connection" := by
  intro scan
  induction scan with
  | nil => intro a h; simp [hfScan] at h
  | cons r rest ih =>
    intro a h
    simp only [hfScan] at h
    split at h
    · split at h
      · exact absurd h (by simp)
      · cases h; rfl
    · exact ih a h

theorem ipAlert_threat {d : List ConnectionRecord} {ip : String} {a : Alert}
    (h : ipAlert d ip = some a) : a.threat_type = "High Frequency Connection" := by
  simp only [ipAlert] at h
  split at h
  · exact absurd h (by simp)
  · exact hfScan_threat ip _ _ a h

theorem map_triple_sublist (mk : ConnectionRecord → Alert)
    (hmk : ∀ r, ((mk r).timestamp, (mk r).source_ip, (mk r).port) =
      (r.timestamp, r.source_ip, r.port))
    (p : ConnectionRecord → Bool) (df : List ConnectionRecord) :
    (((df.filter p).map mk).map (fun a => (a.timestamp, a.source_ip, a.port))).Sublist
      (df.map (fun r => (r.timestamp, r.source_ip, r.port))) := by
  rw [List.map_map]
  have heq : (df.filter p).map ((fun a => (a.timestamp, a.source_ip, a.port)) ∘ mk) =
      (df.filter p).map (fun r => (r.timestamp, r.source_ip, r.port)) :=
    List.map_congr_left (fun r _ => hmk r)
  rw [heq]
  exact (List.filter_sublist df).map _

/-- C3: for every successfully parsed batch, the orchestrator returns
exactly the concatenation of the four detector outputs in fixed rule order
(suspicious ports, high frequency, unusual protocols, large packets); each
segment holds only alerts of its own threat type, and within a segment the
alerts follow input record order (for the stateless rules, the triggering
triples form a sublist of the input projection; for the frequency rule the
source order is a sublist of the input source order). -/
theorem c3_orchestrator_fixed_order (b : RawBatch) (df : List ConnectionRecord)
    (h : parse_csv_logs b = Except.ok df) :
    analyze_logs b = Except.ok
      (detect_suspicious_ports df ++ detect_high_frequency_connections df ++
       detect_unusual_protocols df ++ detect_large_packets df large_packet_threshold) ∧
    (∀ a ∈ detect_suspicious_ports df, a.threat_type = "Suspicious Port") ∧
    (∀ a ∈ detect_high_frequency_connections df,
      a.threat_type = "High Frequency Connection") ∧
    (∀ a ∈ detect_unusual_protocols df, a.threat_type = "Unusual Protocol") ∧
    (∀ a ∈ detect_large_packets df large_packet_threshold,
      a.threat_type = "Large Packet") ∧
    ((detect_suspicious_ports df).map
        (fun a => (a.timestamp, a.source_ip, a.port))).Sublist
      (df.map (fun r => (r.timestamp, r.source_ip, r.port))) ∧
    ((detect_unusual_protocols df).map
        (fun a => (a.timestamp, a.source_ip, a.port))).Sublist
      (df.map (fun r => (r.timestamp, r.source_ip, r.port))) ∧
    ((detect_large_packets df large_packet_threshold).map
        (fun a => (a.timestamp, a.source_ip, a.port))).Sublist
      (df.map (fun r => (r.timestamp, r.source_ip, r.port))) ∧
    ((detect_high_frequency_connections df).map (fun a => a.source_ip)).Sublist
      (df.map (fun r => r.source_ip)) := by
  refine ⟨?_, ?_, ?_, ?_, ?_, ?_, ?_, ?_, ?_⟩
  · simp [analyze_logs, h]
  · intro a ha
    obtain ⟨r, _, hr⟩ := List.mem_map.mp ha
    rw [← hr]; rfl
  · intro a ha
    obtain ⟨ip, _, hip⟩ := List.mem_filterMap.mp ha
    exact ipAlert_threat hip
  · intro a ha
    obtain ⟨r, _, hr⟩ := List.mem_map.mp ha
    rw [← hr]; rfl
  · intro a ha
    obtain ⟨r, _, hr⟩ := List.mem_map.mp ha
    rw [← hr]; rfl
  · exact map_triple_sublist _ (fun r => rfl) _ df
  · exact map_triple_sublist _ (fun r => rfl) _ df
  · exact map_triple_sublist _ (fun r => rfl) _ df
  · exact (map_filterMap_sublist _ (fun i a h2 => ipAlert_source h2) _).trans
      (sublist_uniques _)

/-- Single-record batch from the spec scenario: port 4444, protocol ICMP,
packet size 70000. -/
def c3_batch : RawBatch :=
  { header := ["timestamp", "source_ip", "destination_ip", "port", "protocol",
               "packet_size"],
    rows := [[Cell.str "2024-01-01 00:00:00", Cell.str "192.168.1.50",
              Cell.str "10.0.0.1", Cell.int 4444, Cell.str "ICMP",
              Cell.int 70000]] }

/-- The record `c3_batch` parses to. -/
def c3_rec : ConnectionRecord :=
  { timestamp := 65055744000, source_ip := "192.168.1.50",
    destination_ip := "10.0.0.1", port := 4444, protocol := "ICMP",
    packet_size := 70000 }

theorem c3_witness :
    analyze_logs c3_batch = Except.ok
      (detect_suspicious_ports [c3_rec] ++
       detect_high_frequency_connections [c3_rec] ++
       detect_unusual_protocols [c3_rec] ++
       detect_large_packets [c3_rec] large_packet_threshold) :=
  (c3_orchestrator_fixed_order c3_batch [c3_rec] (by decide)).1

theorem parseRows_length (header : List String) :
    ∀ rows recs, parseRows header rows = some recs → recs.length = rows.length := by
  intro rows
  induction rows with
  | nil =>
    intro recs h
    simp only [parseRows] at h
    cases h; rfl
  | cons row rest ih =>
    intro recs h
    simp only [parseRows] at h
    cases hrow : parseRow header row with
    | none => rw [hrow] at h; simp at h
    | some r =>
      rw [hrow] at h
      cases hrest : parseRows header rest with
      | none => rw [hrest] at h; simp at h
      | some rs =>
        rw [hrest] at h
        simp at h
        subst h
        simp [ih rs hrest]

theorem parseRows_get (header : List String) :
    ∀ rows recs, parseRows header rows = some recs →
    ∀ i, recs.get? i = (rows.get? i).bind (parseRow header) := by
  intro rows
  induction rows with
  | nil =>
    intro recs h i
    simp only [parseRows] at h
    cases h
    simp
  | cons row rest ih =>
    intro recs h i
    simp only [parseRows] at h
    cases hrow : parseRow header row with
    | none => rw [hrow] at h; simp at h
    | some r =>
      rw [hrow] at h
      cases hrest : parseRows header rest with
      | none => rw [hrest] at h; simp at h
      | some rs =>
        rw [hrest] at h
        simp at h
        subst h
        cases i with
        | zero => simp [hrow]
        | succ n => simpa using ih rs hrest n

/-- C4 amended: on success, every record of the returned sequence is
produced from its input row in order — row `i` yields record `i` through
`parseRow`, so all six fields are present and typed and the timestamp was
parsed — and the header contains every required column.  No sign condition
is imposed on `port` or `packet_size` (the parser returns negative values
unchanged). -/
theorem c4_parser_output_guarantee (b : RawBatch) (recs : List ConnectionRecord)
    (h : parse_csv_logs b = Except.ok recs) :
    (∀ c ∈ requiredColumns, c ∈ b.header) ∧
    recs.length = b.rows.length ∧
    (∀ i, recs.get? i = (b.rows.get? i).bind (parseRow b.header)) := by
  simp only [parse_csv_logs] at h
  by_cases hmiss : requiredColumns.filter (fun c => decide (c ∉ b.header)) = []
  · rw [if_pos hmiss] at h
    have hcols : ∀ c ∈ requiredColumns, c ∈ b.header := by
      intro c hc
      by_contra hnc
      rw [List.filter_eq_nil_iff] at hmiss
      exact hmiss c hc (by simpa using hnc)
    cases hrows : parseRows b.header b.rows with
    | none => rw [hrows] at h; simp at h
    | some rs =>
      rw [hrows] at h
      simp only [Except.ok.injEq] at h
      rw [← h]
      exact ⟨hcols, parseRows_length b.header b.rows rs hrows,
        parseRows_get b.header b.rows rs hrows⟩
  · rw [if_neg hmiss] at h
    simp at h

/-- Batch whose single row carries a negative `port` cell. -/
def c4_batch : RawBatch :=
  { header := ["timestamp", "source_ip", "destination_ip", "port", "protocol",
               "packet_size"],
    rows := [[Cell.str "2024-01-01 00:00:00", Cell.str "1.2.3.4",
              Cell.str "5.6.7.8", Cell.int (-1), Cell.str "TCP",
              Cell.int 100]] }

/-- The record `c4_batch` parses to: its `port` is negative. -/
def c4_rec : ConnectionRecord :=
  { timestamp := 65055744000, source_ip := "1.2.3.4",
    destination_ip := "5.6.7.8", port := -1, protocol := "TCP",
    packet_size := 100 }

/-- C4 counterexample: the parser accepts a row whose `port` cell is the
negative integer -1 and returns the record unchanged, so the returned
sequence violates the claimed non-negativity of `port`. -/
theorem c4_counterexample :
    parse_csv_logs c4_batch = Except.ok [c4_rec] ∧ c4_rec.port < 0 := by decide

theorem c4_witness : [c4_rec].length = c4_batch.rows.length :=
  (c4_parser_output_guarantee c4_batch [c4_rec] (by decide)).2.1

/-- C5: a batch whose header misses required columns fails with a schema
error listing exactly the missing column names; no records are produced,
no detector runs, and the orchestrator propagates the same error with no
partial alert list. -/
theorem c5_schema_rejection (b : RawBatch)
    (h : ∃ c ∈ requiredColumns, c ∉ b.header) :
    parse_csv_logs b = Except.error (AnalyzerError.schemaError
      (requiredColumns.filter (fun c => decide (c ∉ b.header)))) ∧
    analyze_logs b = Except.error (AnalyzerError.schemaError
      (requiredColumns.filter (fun c => decide (c ∉ b.header)))) ∧
    (∀ c, c ∈ requiredColumns.filter (fun c => decide (c ∉ b.header)) ↔
      c ∈ requiredColumns ∧ c ∉ b.header) := by
  have hne : ¬ requiredColumns.filter (fun c => decide (c ∉ b.header)) = [] := by
    obtain ⟨c, hc, hnc⟩ := h
    intro hnil
    rw [List.filter_eq_nil_iff] at hnil
    exact hnil c hc (by simpa using hnc)
  have h1 : parse_csv_logs b = Except.error (AnalyzerError.schemaError
      (requiredColumns.filter (fun c => decide (c ∉ b.header)))) := by
    simp only [parse_csv_logs]
    rw [if_neg hne]
  refine ⟨h1, ?_, ?_⟩
  · simp [analyze_logs, h1]
  · intro c
    simp [List.mem_filter]

/-- Batch missing the `protocol` column. -/
def c5_batch : RawBatch :=
  { header := ["timestamp", "source_ip", "destination_ip", "port", "packet_size"],
    rows := [] }

theorem c5_witness :
    analyze_logs c5_batch = Except.error (AnalyzerError.schemaError ["protocol"]) := by
  have h := (c5_schema_rejection c5_batch ⟨"protocol", by decide, by decide⟩).2.1
  rw [(by decide : requiredColumns.filter
    (fun c => decide (c ∉ c5_batch.header)) = ["protocol"])] at h
  exact h

theorem addSource_spec (s : List String) (ip : String) (h : s.Nodup) :
    (addSource s ip).Nodup ∧ (addSource s ip).toFinset = s.toFinset ∪ {ip} := by
  rw [addSource]
  by_cases hm : ip ∈ s
  · rw [if_pos hm]
    exact ⟨h, (Finset.union_eq_left.mpr (by simpa using hm)).symm⟩
  · rw [if_neg hm]
    constructor
    · simp [List.nodup_append, h, hm]
    · simp [List.toFinset_append]

theorem foldl_addSource (alerts : List Alert) :
    ∀ init : List String, init.Nodup →
    (alerts.foldl (fun s a => addSource s a.source_ip) init).Nodup ∧
    (alerts.foldl (fun s a => addSource s a.source_ip) init).toFinset =
      init.toFinset ∪ (alerts.map (fun a => a.source_ip)).toFinset := by
  induction alerts with
  | nil => intro init h; simp [h]
  | cons a rest ih =>
    intro init h
    rw [List.foldl_cons]
    obtain ⟨h1, h2⟩ := addSource_spec init a.source_ip h
    obtain ⟨h3, h4⟩ := ih (addSource init a.source_ip) h1
    refine ⟨h3, ?_⟩
    rw [h4, h2, List.map_cons, List.toFinset_cons]
    ext x
    simp
    tauto

theorem sum_bumpCount (k : String) :
    ∀ m : List (String × Nat), ((bumpCount m k).map (fun kv => kv.2)).sum =
      (m.map (fun kv => kv.2)).sum + 1 := by
  intro m
  induction m with
  | nil => simp [bumpCount]
  | cons kv rest ih =>
    obtain ⟨k0, n⟩ := kv
    rw [bumpCount]
    by_cases hk : k0 = k
    · rw [if_pos hk]
      simp
      omega
    · rw [if_neg hk]
      simp [ih]
      omega

theorem foldl_bumpCount (alerts : List Alert) :
    ∀ m : List (String × Nat),
    ((alerts.foldl (fun m a => bumpCount m a.threat_type) m).map
      (fun kv => kv.2)).sum = (m.map (fun kv => kv.2)).sum + alerts.length := by
  induction alerts with
  | nil => intro m; simp
  | cons a rest ih =>
    intro m
    rw [List.foldl_cons, ih, sum_bumpCount]
    simp
    omega

/-- C6: for every alert list the summary is consistent — `total_alerts`
equals the list length, `unique_source_ips` equals the cardinality of the
set of source IPs across all alerts, and the threat-breakdown counts sum
to `total_alerts`. -/
theorem c6_summary_consistency (alerts : List Alert) (now : Nat) :
    (get_analysis_summary alerts now).total_alerts = alerts.length ∧
    (get_analysis_summary alerts now).unique_source_ips =
      (alerts.map (fun a => a.source_ip)).toFinset.card ∧
    ((get_analysis_summary alerts now).threat_breakdown.map
      (fun kv => kv.2)).sum = (get_analysis_summary alerts now).total_alerts := by
  refine ⟨rfl, ?_, ?_⟩
  · show (alerts.foldl (fun s a => addSource s a.source_ip) []).length = _
    obtain ⟨h1, h2⟩ := foldl_addSource alerts [] (by simp)
    rw [← List.toFinset_card_of_nodup h1, h2]
    simp
  · show ((alerts.foldl (fun m a => bumpCount m a.threat_type) []).map
      (fun kv => kv.2)).sum = alerts.length
    rw [foldl_bumpCount]
    simp

/-- A record with packet size zero. -/
def c7_rec : ConnectionRecord := sampleRec 0 "10.0.0.7" 80 "TCP" 0

/-- C7 counterexample: handed the invalid (negative) packet-size threshold
-1, the engine does not fail — no configuration error exists anywhere in
it — and detection runs, flagging even a zero-size packet. -/
theorem c7_counterexample :
    detect_large_packets [c7_rec] (-1) = [mkLargePacketAlert (-1) c7_rec] := by
  decide

/-- C7 amended: the engine performs no configuration validation and defines
no ConfigError; a negative packet-size threshold is used exactly as
supplied, and detection proceeds to flag every record with non-negative
packet size instead of failing before detection. -/
theorem c7_no_config_validation (df : List ConnectionRecord) (t : Int)
    (ht : t < 0) (hdf : ∀ r ∈ df, 0 ≤ r.packet_size) :
    detect_large_packets df t = df.map (mkLargePacketAlert t) := by
  rw [detect_large_packets]
  have hall : df.filter (fun r => decide (t < r.packet_size)) = df := by
    rw [List.filter_eq_self]
    intro r hr
    simp only [decide_eq_true_eq]
    exact lt_of_lt_of_le ht (hdf r hr)
  rw [hall]

theorem c7_witness :
    detect_large_packets [c7_rec] (-2) = [mkLargePacketAlert (-2) c7_rec] :=
  c7_no_config_validation [c7_rec] (-2) (by decide) (by decide)

theorem detect_unusual_flatMap (df : List ConnectionRecord) :
    detect_unusual_protocols df =
      df.flatMap (fun x => detect_unusual_protocols [x]) := by
  induction df with
  | nil => rfl
  | cons r rest ih =>
    rw [List.flatMap_cons, ← ih]
    by_cases hp : strUpper r.protocol ∈ common_protocols
    · simp [detect_unusual_protocols, List.filter_cons, hp, List.filter]
    · simp [detect_unusual_protocols, List.filter_cons, hp, List.filter]

/-- C8: the protocol detector compares protocols case-insensitively and is
one-to-one with offending records — its output decomposes record-wise; a
single record produces no alert exactly when its uppercased protocol is in
the known set, and exactly the single corresponding alert otherwise. -/
theorem c8_protocol_case_insensitive (df : List ConnectionRecord)
    (r : ConnectionRecord) :
    (detect_unusual_protocols df =
      df.flatMap (fun x => detect_unusual_protocols [x])) ∧
    (detect_unusual_protocols [r] = [] ↔ strUpper r.protocol ∈ common_protocols) ∧
    (strUpper r.protocol ∉ common_protocols →
      detect_unusual_protocols [r] = [mkUnusualProtocolAlert r]) := by
  refine ⟨detect_unusual_flatMap df, ?_, ?_⟩
  · by_cases hp : strUpper r.protocol ∈ common_protocols
    · simp [detect_unusual_protocols, List.filter, hp]
    · simp [detect_unusual_protocols, List.filter, hp]
  · intro hp
    simp [detect_unusual_protocols, List.filter, hp]

/-- Records with lower-, upper- and mixed-case known protocols, and one
with an unknown protocol. -/
def tcpRecLower : ConnectionRecord := sampleRec 0 "172.16.0.1" 80 "tcp" 1

def tcpRecUpper : ConnectionRecord := sampleRec 0 "172.16.0.1" 80 "TCP" 1

def tcpRecMixed : ConnectionRecord := sampleRec 0 "172.16.0.1" 80 "Tcp" 1

def icmpRec : ConnectionRecord := sampleRec 0 "172.16.0.1" 80 "ICMP" 1

theorem c8_witness :
    detect_unusual_protocols [tcpRecLower] = [] ∧
    detect_unusual_protocols [tcpRecUpper] = [] ∧
    detect_unusual_protocols [tcpRecMixed] = [] ∧
    detect_unusual_protocols [icmpRec] = [mkUnusualProtocolAlert icmpRec] :=
  ⟨(c8_protocol_case_insensitive [] tcpRecLower).2.1.mpr (by decide),
   (c8_protocol_case_insensitive [] tcpRecUpper).2.1.mpr (by decide),
   (c8_protocol_case_insensitive [] tcpRecMixed).2.1.mpr (by decide),
   (c8_protocol_case_insensitive [] icmpRec).2.2 (by decide)⟩

end IDD
